import Mathlib

/-!
Verification development for the Q-TRUTH script (`main.py`).

The quantum circuit `q_coherence_scan` is embedded as a state-vector
simulation: a 7-wire register is a complex amplitude for every assignment
of a bit to each wire.  Gates are the standard matrices PennyLane uses
(`RY`, `RX`, `RZ`, `Hadamard`, `CNOT`), applied in exactly the order the
source applies them, and `PauliZ` expectation values are read off the
final amplitudes.
-/

/-- A state of the 7-qubit register `DEV`: an amplitude for each
assignment of the seven wires to basis bits. -/
def QState : Type := (Fin 7 → Bool) → ℂ

/-- The initial state `|0000000⟩` of `default.qubit`. -/
noncomputable def initState : QState := fun b => if b = (fun _ => false) then 1 else 0

/-- Apply a single-qubit gate with matrix `m` (indexed `m out in`) to
wire `w`. -/
noncomputable def applyGate1 (m : Bool → Bool → ℂ) (w : Fin 7) (ψ : QState) : QState :=
  fun b =>
    m (b w) false * ψ (Function.update b w false) +
    m (b w) true * ψ (Function.update b w true)

/-- The matrix of `qml.RY(θ)`: rows/columns indexed by `false = |0⟩`,
`true = |1⟩`. -/
noncomputable def ryMat (θ : ℝ) : Bool → Bool → ℂ
  | false, false => (Real.cos (θ / 2) : ℝ)
  | false, true => -(Real.sin (θ / 2) : ℝ)
  | true, false => (Real.sin (θ / 2) : ℝ)
  | true, true => (Real.cos (θ / 2) : ℝ)

/-- The matrix of `qml.RX(φ)`. -/
noncomputable def rxMat (φ : ℝ) : Bool → Bool → ℂ
  | false, false => (Real.cos (φ / 2) : ℝ)
  | false, true => -((Real.sin (φ / 2) : ℝ) * Complex.I)
  | true, false => -((Real.sin (φ / 2) : ℝ) * Complex.I)
  | true, true => (Real.cos (φ / 2) : ℝ)

/-- The matrix of `qml.RZ(φ)`: `diag (exp (-iφ/2), exp (iφ/2))`. -/
noncomputable def rzMat (φ : ℝ) : Bool → Bool → ℂ
  | false, false => Complex.exp (-(φ / 2 : ℝ) * Complex.I)
  | false, true => 0
  | true, false => 0
  | true, true => Complex.exp ((φ / 2 : ℝ) * Complex.I)

/-- The matrix of `qml.Hadamard`. -/
noncomputable def hMat : Bool → Bool → ℂ
  | false, false => (1 / Real.sqrt 2 : ℝ)
  | false, true => (1 / Real.sqrt 2 : ℝ)
  | true, false => (1 / Real.sqrt 2 : ℝ)
  | true, true => -(1 / Real.sqrt 2 : ℝ)

/-- The basis-state permutation realised by `qml.CNOT(wires=[c, t])`:
flip the target bit exactly when the control bit is set. -/
noncomputable def cnotFun (c t : Fin 7) (b : Fin 7 → Bool) : Fin 7 → Bool :=
  if b c then Function.update b t (!(b t)) else b

/-- Apply `qml.CNOT(wires=[c, t])`.  `cnotFun` is an involution, so the
preimage of a basis state is its image. -/
noncomputable def applyCNOT (c t : Fin 7) (ψ : QState) : QState :=
  fun b => ψ (cnotFun c t b)

/-- The state of the register after all gates of `q_coherence_scan`,
in the source's order: `RY(theta, 0)`, `RX(color_avg[0], 1)`,
`RZ(color_avg[1], 2)`, then for each `i` in `4, 5, 6` a `Hadamard(i)`
followed by `RZ(color_avg[0]*pi, i)`, then the ring
`CNOT(i, (i+1) % 7)` for `i` in `0..6`. -/
noncomputable def circuitState (theta c0 c1 : ℝ) : QState :=
  let s1 := applyGate1 (ryMat theta) 0 initState
  let s2 := applyGate1 (rxMat c0) 1 s1
  let s3 := applyGate1 (rzMat c1) 2 s2
  let s4 := applyGate1 (rzMat (c0 * Real.pi)) 4 (applyGate1 hMat 4 s3)
  let s5 := applyGate1 (rzMat (c0 * Real.pi)) 5 (applyGate1 hMat 5 s4)
  let s6 := applyGate1 (rzMat (c0 * Real.pi)) 6 (applyGate1 hMat 6 s5)
  let t0 := applyCNOT 0 1 s6
  let t1 := applyCNOT 1 2 t0
  let t2 := applyCNOT 2 3 t1
  let t3 := applyCNOT 3 4 t2
  let t4 := applyCNOT 4 5 t3
  let t5 := applyCNOT 5 6 t4
  applyCNOT 6 0 t5

/-- `qml.expval(qml.PauliZ(w))` on a state: the `Z_w` expectation,
`+1` weight on basis states with wire `w` clear, `-1` when set. -/
noncomputable def expZ (w : Fin 7) (ψ : QState) : ℝ :=
  ∑ b : Fin 7 → Bool, (if b w then -1 else 1) * Complex.normSq (ψ b)

/-- `q_coherence_scan(theta, color_avg)`: run the fixed circuit and
return the mean of the seven `PauliZ` expectation values. -/
noncomputable def q_coherence_scan (theta : ℝ) (color_avg : ℝ × ℝ) : ℝ :=
  (∑ w : Fin 7, expZ w (circuitState theta color_avg.1 color_avg.2)) / 7

/-- Squared l2 norm of a register state. -/
noncomputable def norm2 (ψ : QState) : ℝ := ∑ b : Fin 7 → Bool, Complex.normSq (ψ b)

theorem norm2_initState : norm2 initState = 1 := by
  classical
  unfold norm2 initState
  rw [Finset.sum_eq_single (fun _ => false)]
  · simp
  · intro b _ hb
    simp [hb]
  · intro h
    exact absurd (Finset.mem_univ _) h

/-- A 2×2 complex matrix (indexed `m out in`) with orthonormal columns. -/
structure IsUnitary2 (m : Bool → Bool → ℂ) : Prop where
  col0 : Complex.normSq (m false false) + Complex.normSq (m true false) = 1
  col1 : Complex.normSq (m false true) + Complex.normSq (m true true) = 1
  orth : (starRingEnd ℂ) (m false false) * m false true +
         (starRingEnd ℂ) (m true false) * m true true = 0

theorem unitary_pair {m : Bool → Bool → ℂ} (hm : IsUnitary2 m) (a0 a1 : ℂ) :
    Complex.normSq (m false false * a0 + m false true * a1) +
      Complex.normSq (m true false * a0 + m true true * a1) =
    Complex.normSq a0 + Complex.normSq a1 := by
  have horth : m false false * (starRingEnd ℂ) (m false true) +
      m true false * (starRingEnd ℂ) (m true true) = 0 := by
    have h := congrArg (starRingEnd ℂ) hm.orth
    simpa [mul_comm] using h
  have key :
      Complex.normSq (m false false * a0 + m false true * a1) +
        Complex.normSq (m true false * a0 + m true true * a1) =
      (Complex.normSq (m false false) + Complex.normSq (m true false)) * Complex.normSq a0 +
        (Complex.normSq (m false true) + Complex.normSq (m true true)) * Complex.normSq a1 +
        2 * ((m false false * (starRingEnd ℂ) (m false true) +
              m true false * (starRingEnd ℂ) (m true true)) * (a0 * (starRingEnd ℂ) a1)).re := by
    simp only [Complex.normSq_add, Complex.normSq_mul, map_mul, Complex.add_re]
    ring_nf
    rw [Complex.add_re]
    ring
  rw [key, horth, hm.col0, hm.col1]
  simp

theorem norm2_applyGate1 {m : Bool → Bool → ℂ} (hm : IsUnitary2 m) (w : Fin 7) (ψ : QState) :
    norm2 (applyGate1 m w ψ) = norm2 ψ := by
  classical
  have split : ∀ φ : QState, norm2 φ =
      ∑ r : { j : Fin 7 // j ≠ w } → Bool,
        (Complex.normSq (φ ((Equiv.funSplitAt w Bool).symm (false, r))) +
         Complex.normSq (φ ((Equiv.funSplitAt w Bool).symm (true, r)))) := by
    intro φ
    simp only [norm2]
    rw [← Equiv.sum_comp (Equiv.funSplitAt w Bool).symm
      (fun b => Complex.normSq (φ b)), Fintype.sum_prod_type, Fintype.sum_bool,
      ← Finset.sum_add_distrib]
    apply Finset.sum_congr rfl
    intro r _
    exact add_comm _ _
  have hb : ∀ x : Bool, ∀ r, (Equiv.funSplitAt w Bool).symm (x, r) w = x := by
    intro x r
    rw [Equiv.funSplitAt_symm_apply]
    simp
  have hu : ∀ x y : Bool, ∀ r,
      Function.update ((Equiv.funSplitAt w Bool).symm (x, r)) w y =
      (Equiv.funSplitAt w Bool).symm (y, r) := by
    intro x y r
    funext j
    rcases eq_or_ne j w with h | h
    · subst h
      rw [Function.update_same, hb]
    · rw [Function.update_noteq h, Equiv.funSplitAt_symm_apply,
        Equiv.funSplitAt_symm_apply]
      simp [h]
  rw [split (applyGate1 m w ψ), split ψ]
  apply Finset.sum_congr rfl
  intro r _
  simp only [applyGate1, hb, hu]
  exact unitary_pair hm _ _

theorem cnotFun_involutive (c t : Fin 7) (hct : c ≠ t) (b : Fin 7 → Bool) :
    cnotFun c t (cnotFun c t b) = b := by
  classical
  unfold cnotFun
  by_cases hc : b c
  · simp [hc, Function.update_noteq hct, Function.update_same, Function.update_idem,
      Function.update_eq_self]
  · simp [hc]

/-- `cnotFun c t` as a self-inverse permutation of the basis states. -/
noncomputable def cnotEquiv (c t : Fin 7) (hct : c ≠ t) : (Fin 7 → Bool) ≃ (Fin 7 → Bool) where
  toFun := cnotFun c t
  invFun := cnotFun c t
  left_inv := cnotFun_involutive c t hct
  right_inv := cnotFun_involutive c t hct

theorem norm2_applyCNOT (c t : Fin 7) (hct : c ≠ t) (ψ : QState) :
    norm2 (applyCNOT c t ψ) = norm2 ψ := by
  simp only [norm2, applyCNOT]
  exact Equiv.sum_comp (cnotEquiv c t hct) (fun b => Complex.normSq (ψ b))

theorem ryMat_unitary (θ : ℝ) : IsUnitary2 (ryMat θ) := by
  constructor
  · simp only [ryMat, Complex.normSq_ofReal]
    nlinarith [Real.sin_sq_add_cos_sq (θ / 2)]
  · simp only [ryMat, Complex.normSq_neg, Complex.normSq_ofReal]
    nlinarith [Real.sin_sq_add_cos_sq (θ / 2)]
  · simp only [ryMat, Complex.conj_ofReal]
    push_cast
    ring

theorem rxMat_unitary (φ : ℝ) : IsUnitary2 (rxMat φ) := by
  constructor
  · simp only [rxMat, Complex.normSq_ofReal, Complex.normSq_neg, Complex.normSq_mul,
      Complex.normSq_I]
    nlinarith [Real.sin_sq_add_cos_sq (φ / 2)]
  · simp only [rxMat, Complex.normSq_ofReal, Complex.normSq_neg, Complex.normSq_mul,
      Complex.normSq_I]
    nlinarith [Real.sin_sq_add_cos_sq (φ / 2)]
  · simp only [rxMat, Complex.conj_ofReal, map_neg, map_mul, Complex.conj_I]
    ring

theorem rzMat_unitary (φ : ℝ) : IsUnitary2 (rzMat φ) := by
  have h : ∀ x : ℝ, Complex.normSq (Complex.exp ((x : ℝ) * Complex.I)) = 1 := by
    intro x
    rw [← Complex.sq_abs, Complex.abs_exp_ofReal_mul_I]
    norm_num
  constructor
  · simp only [rzMat, Complex.normSq_zero]
    rw [show (-(φ / 2 : ℝ) * Complex.I) = ((-(φ / 2) : ℝ) : ℂ) * Complex.I by push_cast; ring]
    rw [h]
    ring
  · simp only [rzMat, Complex.normSq_zero]
    rw [h]
    ring
  · simp only [rzMat, map_zero]
    ring

theorem hMat_unitary : IsUnitary2 hMat := by
  have h2 : Complex.normSq ((1 / Real.sqrt 2 : ℝ) : ℂ) = 1 / 2 := by
    rw [Complex.normSq_ofReal]
    rw [div_mul_div_comm, one_mul, Real.mul_self_sqrt (by norm_num : (2:ℝ) ≥ 0).le]
  constructor
  · simp only [hMat, h2]
    norm_num
  · simp only [hMat, Complex.normSq_neg, h2]
    norm_num
  · simp only [hMat, Complex.conj_ofReal]
    ring

theorem norm2_circuitState (theta c0 c1 : ℝ) : norm2 (circuitState theta c0 c1) = 1 := by
  unfold circuitState
  rw [norm2_applyCNOT 6 0 (by decide), norm2_applyCNOT 5 6 (by decide),
    norm2_applyCNOT 4 5 (by decide), norm2_applyCNOT 3 4 (by decide),
    norm2_applyCNOT 2 3 (by decide), norm2_applyCNOT 1 2 (by decide),
    norm2_applyCNOT 0 1 (by decide),
    norm2_applyGate1 (rzMat_unitary _), norm2_applyGate1 hMat_unitary,
    norm2_applyGate1 (rzMat_unitary _), norm2_applyGate1 hMat_unitary,
    norm2_applyGate1 (rzMat_unitary _), norm2_applyGate1 hMat_unitary,
    norm2_applyGate1 (rzMat_unitary _), norm2_applyGate1 (rxMat_unitary _),
    norm2_applyGate1 (ryMat_unitary _), norm2_initState]

theorem abs_expZ_le_norm2 (w : Fin 7) (ψ : QState) : |expZ w ψ| ≤ norm2 ψ := by
  unfold expZ norm2
  refine le_trans (Finset.abs_sum_le_sum_abs _ _) ?_
  apply Finset.sum_le_sum
  intro b _
  rcases Bool.eq_false_or_eq_true (b w) with h | h <;>
    simp [h, abs_of_nonneg (Complex.normSq_nonneg (ψ b))]

/-- C1: `q_coherence_scan` is a pure function of `theta` and `color_avg`:
on every input it returns the arithmetic mean of the seven `PauliZ`
expectation values of the fixed gate sequence (`RY`, `RX`, `RZ`, three
`Hadamard`+`RZ` pairs, the ring of seven `CNOT`s) applied to `|0…0⟩`, and
this value always lies in `[-1, 1]`. -/
theorem q_coherence_scan_pure_and_bounded (theta : ℝ) (color_avg : ℝ × ℝ) :
    q_coherence_scan theta color_avg =
      (∑ w : Fin 7, expZ w (circuitState theta color_avg.1 color_avg.2)) / 7 ∧
    -1 ≤ q_coherence_scan theta color_avg ∧ q_coherence_scan theta color_avg ≤ 1 := by
  refine ⟨rfl, ?_⟩
  have hψ : norm2 (circuitState theta color_avg.1 color_avg.2) = 1 :=
    norm2_circuitState _ _ _
  have h1 : ∀ w : Fin 7, |expZ w (circuitState theta color_avg.1 color_avg.2)| ≤ 1 := by
    intro w
    rw [← hψ]
    exact abs_expZ_le_norm2 w _
  have hsum : |∑ w : Fin 7, expZ w (circuitState theta color_avg.1 color_avg.2)| ≤ 7 := by
    refine le_trans (Finset.abs_sum_le_sum_abs _ _) ?_
    calc ∑ w : Fin 7, |expZ w (circuitState theta color_avg.1 color_avg.2)|
        ≤ ∑ _w : Fin 7, (1 : ℝ) := Finset.sum_le_sum fun w _ => h1 w
      _ = 7 := by simp
  have habs : |q_coherence_scan theta color_avg| ≤ 1 := by
    unfold q_coherence_scan
    rw [abs_div]
    rw [show |(7 : ℝ)| = 7 by norm_num]
    linarith [hsum]
  exact abs_le.mp habs

/-- The first two gates of the circuit (`RY` on wire 0, `RX` on wire 1). -/
noncomputable def circuitHead (theta c0 : ℝ) : QState :=
  applyGate1 (rxMat c0) 1 (applyGate1 (ryMat theta) 0 initState)

/-- The gates of the circuit after the `RZ(color_avg[1])` on wire 2. -/
noncomputable def circuitTail (c0 : ℝ) (ψ : QState) : QState :=
  let s4 := applyGate1 (rzMat (c0 * Real.pi)) 4 (applyGate1 hMat 4 ψ)
  let s5 := applyGate1 (rzMat (c0 * Real.pi)) 5 (applyGate1 hMat 5 s4)
  let s6 := applyGate1 (rzMat (c0 * Real.pi)) 6 (applyGate1 hMat 6 s5)
  let t0 := applyCNOT 0 1 s6
  let t1 := applyCNOT 1 2 t0
  let t2 := applyCNOT 2 3 t1
  let t3 := applyCNOT 3 4 t2
  let t4 := applyCNOT 4 5 t3
  let t5 := applyCNOT 5 6 t4
  applyCNOT 6 0 t5

theorem circuitState_decomp (theta c0 c1 : ℝ) :
    circuitState theta c0 c1 =
      circuitTail c0 (applyGate1 (rzMat c1) 2 (circuitHead theta c0)) := rfl

theorem applyGate1_mul (m : Bool → Bool → ℂ) (w : Fin 7) (c : ℂ) (ψ : QState) :
    applyGate1 m w (fun b => c * ψ b) = fun b => c * applyGate1 m w ψ b := by
  funext b
  simp only [applyGate1]
  ring

theorem applyCNOT_mul (ct t : Fin 7) (c : ℂ) (ψ : QState) :
    applyCNOT ct t (fun b => c * ψ b) = fun b => c * applyCNOT ct t ψ b := by
  funext b
  simp only [applyCNOT]

theorem circuitTail_mul (c0 : ℝ) (c : ℂ) (ψ : QState) :
    circuitTail c0 (fun b => c * ψ b) = fun b => c * circuitTail c0 ψ b := by
  simp only [circuitTail]
  rw [applyGate1_mul, applyGate1_mul, applyGate1_mul, applyGate1_mul,
    applyGate1_mul, applyGate1_mul, applyCNOT_mul, applyCNOT_mul, applyCNOT_mul,
    applyCNOT_mul, applyCNOT_mul, applyCNOT_mul, applyCNOT_mul]

theorem applyGate1_supp {v w : Fin 7} (hvw : v ≠ w) (m : Bool → Bool → ℂ) {ψ : QState}
    (h : ∀ b, b v = true → ψ b = 0) :
    ∀ b, b v = true → applyGate1 m w ψ b = 0 := by
  intro b hb
  simp only [applyGate1]
  rw [h _ (by rw [Function.update_noteq hvw]; exact hb),
    h _ (by rw [Function.update_noteq hvw]; exact hb)]
  ring

theorem initState_supp : ∀ b : Fin 7 → Bool, b 2 = true → initState b = 0 := by
  intro b hb
  simp only [initState, ite_eq_right_iff]
  intro heq
  rw [heq] at hb
  exact absurd hb (by simp)

theorem circuitHead_supp (theta c0 : ℝ) :
    ∀ b, b 2 = true → circuitHead theta c0 b = 0 := by
  unfold circuitHead
  exact applyGate1_supp (by decide) _ (applyGate1_supp (by decide) _ initState_supp)

theorem rz_phase (c1 : ℝ) {ψ : QState} (h : ∀ b, b 2 = true → ψ b = 0) :
    applyGate1 (rzMat c1) 2 ψ =
      fun b => Complex.exp (-(c1 / 2 : ℝ) * Complex.I) * ψ b := by
  funext b
  rcases Bool.eq_false_or_eq_true (b 2) with h2 | h2
  · have hupd : Function.update b 2 true = b := by
      funext j
      rcases eq_or_ne j 2 with hj | hj
      · subst hj
        rw [Function.update_same]
        exact h2.symm
      · rw [Function.update_noteq hj]
    simp only [applyGate1, h2, rzMat, hupd]
    rw [h b h2]
    ring
  · have hupd : Function.update b 2 false = b := by
      funext j
      rcases eq_or_ne j 2 with hj | hj
      · subst hj
        rw [Function.update_same]
        exact h2.symm
      · rw [Function.update_noteq hj]
    simp only [applyGate1, h2, rzMat, hupd]
    rw [h (Function.update b 2 true) (by rw [Function.update_same])]
    ring

theorem circuitState_phase (theta c0 c1 : ℝ) :
    circuitState theta c0 c1 =
      fun b => Complex.exp (-(c1 / 2 : ℝ) * Complex.I) *
        circuitTail c0 (circuitHead theta c0) b := by
  rw [circuitState_decomp, rz_phase c1 (circuitHead_supp theta c0), circuitTail_mul]

theorem normSq_circuitState_c1 (theta c0 c1 : ℝ) (b : Fin 7 → Bool) :
    Complex.normSq (circuitState theta c0 c1 b) =
      Complex.normSq (circuitTail c0 (circuitHead theta c0) b) := by
  have hp := congrFun (circuitState_phase theta c0 c1) b
  have h1 : Complex.normSq (Complex.exp (-(c1 / 2 : ℝ) * Complex.I)) = 1 := by
    rw [show (-(c1 / 2 : ℝ) * Complex.I : ℂ) = ((-(c1 / 2) : ℝ) : ℂ) * Complex.I by
      push_cast; ring, ← Complex.sq_abs, Complex.abs_exp_ofReal_mul_I]
    norm_num
  rw [hp, Complex.normSq_mul, h1, one_mul]

/-- C8: the value of `q_coherence_scan` does not depend on the second
component of `color_avg`: the `RZ(color_avg[1])` on wire 2 acts on a wire
still in `|0⟩`, contributing only a global phase that no `PauliZ`
expectation value observes. -/
theorem q_coherence_scan_ignores_color1 (theta c0 c1 c1' : ℝ) :
    q_coherence_scan theta (c0, c1) = q_coherence_scan theta (c0, c1') := by
  have hsum : ∀ c : ℝ, (∑ w : Fin 7, expZ w (circuitState theta c0 c)) =
      ∑ w : Fin 7, expZ w (circuitTail c0 (circuitHead theta c0)) := by
    intro c
    apply Finset.sum_congr rfl
    intro w _
    unfold expZ
    apply Finset.sum_congr rfl
    intro b _
    rw [normSq_circuitState_c1]
  show (∑ w : Fin 7, expZ w (circuitState theta c0 c1)) / 7 =
    (∑ w : Fin 7, expZ w (circuitState theta c0 c1')) / 7
  rw [hsum c1, hsum c1']

/-!
Embedding of `QuantumImageProfile.from_image` and of the `run_analysis`
pipeline.  An image is abstracted by the data the script extracts from it:
the list of face encodings `face_recognition.face_encodings` returns, and
the per-pixel hue and saturation channels of the `cv2` HSV conversion.
-/

/-- What the script reads off an image: the detected face-encoding
vectors, and the per-pixel hue/saturation values of the HSV conversion. -/
structure ImageM where
  faces : List (List ℝ)
  hsvHue : List ℝ
  hsvSat : List ℝ

/-- Arithmetic mean of a list, as `numpy`'s `mean` computes it. -/
noncomputable def listMean (l : List ℝ) : ℝ := l.sum / l.length

/-- `np.linalg.norm`: the Euclidean norm of a vector. -/
noncomputable def vecNorm (v : List ℝ) : ℝ :=
  Real.sqrt ((v.map fun x => x * x).sum)

/-- The angle derivation of `from_image`:
`theta = min(np.linalg.norm(vector), 1.0) * math.pi`. -/
noncomputable def faceTheta (v : List ℝ) : ℝ := min (vecNorm v) 1 * Real.pi

/-- The color-average derivation of `from_image`:
`(color_mean[0] / 180.0, color_mean[1] / 255.0)` where `color_mean` is the
per-channel mean of the HSV image. -/
noncomputable def colorAvg (img : ImageM) : ℝ × ℝ :=
  (listMean img.hsvHue / 180, listMean img.hsvSat / 255)

/-- The errors the script can raise. -/
inductive QError where
  | valueError : String → QError
  | keyError : String → QError
  | apiError : String → QError
  | jsonDecodeError : String → QError
deriving DecidableEq

/-- `QuantumImageProfile.from_image`: raise `ValueError` when no face is
detected, otherwise return the first face's vector, the derived angle and
the color average. -/
noncomputable def from_image (img : ImageM) :
    Except QError (List ℝ × ℝ × (ℝ × ℝ)) :=
  match img.faces with
  | [] => .error (.valueError "No face found in image.")
  | v :: _ => .ok (v, faceTheta v, colorAvg img)

/-- C2: the angle derivation is a deterministic function of the input
vector (equal vectors give equal angles) and its result lies in
`[0, π]`. -/
theorem faceTheta_deterministic_bounded (v : List ℝ) :
    (∀ w : List ℝ, v = w → faceTheta v = faceTheta w) ∧
    0 ≤ faceTheta v ∧ faceTheta v ≤ Real.pi := by
  refine ⟨fun w hw => by rw [hw], ?_, ?_⟩
  · apply mul_nonneg
    · exact le_min (Real.sqrt_nonneg _) zero_le_one
    · exact Real.pi_pos.le
  · have h1 : min (vecNorm v) 1 * Real.pi ≤ 1 * Real.pi :=
      mul_le_mul_of_nonneg_right (min_le_right _ _) Real.pi_pos.le
    simpa using h1

theorem faceTheta_deterministic_bounded_witness :
    faceTheta [1] = faceTheta [1] ∧ 0 ≤ faceTheta [1] :=
  ⟨(faceTheta_deterministic_bounded [1]).1 [1] rfl,
   (faceTheta_deterministic_bounded [1]).2.1⟩

/-- C9: as soon as the face vector has Euclidean norm at least 1, the
`min(·, 1.0)` clamp saturates and the derived angle is exactly `π`. -/
theorem faceTheta_saturates (v : List ℝ) (h : 1 ≤ vecNorm v) :
    faceTheta v = Real.pi := by
  unfold faceTheta
  rw [min_eq_right h, one_mul]

theorem faceTheta_saturates_witness : faceTheta [2] = Real.pi := by
  apply faceTheta_saturates
  unfold vecNorm
  simp only [List.map_cons, List.map_nil, List.sum_cons, List.sum_nil]
  rw [show (2 : ℝ) * 2 + 0 = 4 by norm_num]
  rw [show (4 : ℝ) = 2 ^ 2 by norm_num, Real.sqrt_sq (by norm_num : (0:ℝ) ≤ 2)]
  norm_num

theorem list_sum_le (l : List ℝ) (b : ℝ) (h : ∀ x ∈ l, x ≤ b) :
    l.sum ≤ l.length * b := by
  induction l with
  | nil => simp
  | cons x xs ih =>
    simp only [List.sum_cons, List.length_cons]
    push_cast
    have h1 := ih fun y hy => h y (List.mem_cons_of_mem _ hy)
    have h2 := h x (List.mem_cons_self x xs)
    nlinarith

theorem list_le_sum (l : List ℝ) (a : ℝ) (h : ∀ x ∈ l, a ≤ x) :
    l.length * a ≤ l.sum := by
  induction l with
  | nil => simp
  | cons x xs ih =>
    simp only [List.sum_cons, List.length_cons]
    push_cast
    have h1 := ih fun y hy => h y (List.mem_cons_of_mem _ hy)
    have h2 := h x (List.mem_cons_self x xs)
    nlinarith

theorem listMean_bounds (l : List ℝ) (hne : l ≠ []) (a b : ℝ)
    (h : ∀ x ∈ l, a ≤ x ∧ x ≤ b) :
    a ≤ listMean l ∧ listMean l ≤ b := by
  have hlen : 0 < (l.length : ℝ) := by
    have := List.length_pos.mpr hne
    exact_mod_cast this
  unfold listMean
  constructor
  · rw [le_div_iff₀ hlen]
    have := list_le_sum l a fun x hx => (h x hx).1
    linarith
  · rw [div_le_iff₀ hlen]
    have := list_sum_le l b fun x hx => (h x hx).2
    linarith

/-- C3: when the HSV conversion yields per-pixel hue in `[0, 180)` and
saturation in `[0, 255]` (and the image has at least one pixel), the two
components of `color_avg = (mean hue / 180, mean sat / 255)` both lie in
`[0, 1]`. -/
theorem colorAvg_bounded (img : ImageM)
    (hhne : img.hsvHue ≠ []) (hsne : img.hsvSat ≠ [])
    (hh : ∀ x ∈ img.hsvHue, 0 ≤ x ∧ x < 180)
    (hs : ∀ x ∈ img.hsvSat, 0 ≤ x ∧ x ≤ 255) :
    0 ≤ (colorAvg img).1 ∧ (colorAvg img).1 ≤ 1 ∧
    0 ≤ (colorAvg img).2 ∧ (colorAvg img).2 ≤ 1 := by
  have hhm := listMean_bounds img.hsvHue hhne 0 180
    fun x hx => ⟨(hh x hx).1, (hh x hx).2.le⟩
  have hsm := listMean_bounds img.hsvSat hsne 0 255 hs
  unfold colorAvg
  refine ⟨?_, ?_, ?_, ?_⟩
  · exact div_nonneg hhm.1 (by norm_num)
  · rw [div_le_one (by norm_num : (0:ℝ) < 180)]
    exact hhm.2
  · exact div_nonneg hsm.1 (by norm_num)
  · rw [div_le_one (by norm_num : (0:ℝ) < 255)]
    exact hsm.2

theorem colorAvg_bounded_witness :
    0 ≤ (colorAvg ⟨[], [90], [100]⟩).1 ∧ (colorAvg ⟨[], [90], [100]⟩).1 ≤ 1 ∧
    0 ≤ (colorAvg ⟨[], [90], [100]⟩).2 ∧ (colorAvg ⟨[], [90], [100]⟩).2 ≤ 1 :=
  colorAvg_bounded ⟨[], [90], [100]⟩ (by simp) (by simp)
    (by intro x hx; simp at hx; rw [hx]; norm_num)
    (by intro x hx; simp at hx; rw [hx]; norm_num)

/-- Parsed JSON values, as `json.loads` produces them. -/
inductive Json where
  | str : String → Json
  | num : ℚ → Json
  | bool : Bool → Json
  | null : Json
  | arr : List Json → Json
  | obj : List (String × Json) → Json

/-- Dictionary access `j[k]` on a parsed response, `none` when the key is
absent (Python raises `KeyError`) or the value is not an object. -/
def Json.get : Json → String → Option Json
  | .obj fields, k => fields.lookup k
  | _, _ => none

/-- A failure of one remote round-trip of `ask`: an `openai` API error
(missing credential, network failure) or a response body that
`json.loads` rejects. -/
inductive RemoteFail where
  | apiError : String → RemoteFail
  | jsonDecodeError : String → RemoteFail

/-- Lift a remote failure into the script's error universe. -/
def RemoteFail.toQError : RemoteFail → QError
  | .apiError m => QError.apiError m
  | .jsonDecodeError m => QError.jsonDecodeError m

/-- `QTruthDetector.ask`: one `ChatCompletion` request followed by one
`json.loads` of the reply, with no retry, no timeout handling and no
schema validation.  The remote service is abstracted by an oracle giving,
for the `k`-th request of the run, either the parsed JSON reply or the
failure the call raises. -/
def ask (remote : ℕ → Except RemoteFail Json) (k : ℕ) : Except QError Json :=
  match remote k with
  | .error e => .error e.toQError
  | .ok j => .ok j

/-- The data interpolated into the two prompt templates.  The surrounding
text of `corruption_stage1` / `corruption_stage2` is a fixed constant, so
a prompt is captured by the values formatted into it. -/
inductive Prompt where
  | stage1 : ℝ → ℝ → ℝ × ℝ → Prompt
  | stage2 : Json → ℝ → Prompt

/-- `corruption_stage1(theta, q_score, color_avg)`: the first-stage
prompt, a function of the angle, the circuit score and the color pair. -/
def corruption_stage1 (theta q_score : ℝ) (color_avg : ℝ × ℝ) : Prompt :=
  Prompt.stage1 theta q_score color_avg

/-- `corruption_stage2(alignment, theta)`: the second-stage prompt, a
function of the first response's `alignment` field and the angle. -/
def corruption_stage2 (alignment : Json) (theta : ℝ) : Prompt :=
  Prompt.stage2 alignment theta

/-- The report object `run_analysis` serializes: exactly the eight fields
of the `report` dict literal. -/
structure Report where
  timestamp : String
  theta : ℝ
  q_score : ℝ
  alignment : Json
  risk_score : Json
  summary : Json
  branches : Json
  intervention : Json

/-- Observable effects of a run: evaluating the quantum circuit, issuing
a remote text-completion request, writing a file to local disk. -/
inductive Event where
  | circuitEval : ℝ → ℝ × ℝ → Event
  | remoteRequest : Prompt → Event
  | fileWrite : String → Report → Event

/-- The remote requests recorded in a trace, in order. -/
def requestsOf (tr : List Event) : List Prompt :=
  tr.filterMap fun e =>
    match e with
    | .remoteRequest p => some p
    | _ => none

/-- The file writes recorded in a trace, in order. -/
def filesOf (tr : List Event) : List (String × Report) :=
  tr.filterMap fun e =>
    match e with
    | .fileWrite n r => some (n, r)
    | _ => none

/-- `QTruthDetector.run_analysis`: derive the scalars from the image, run
the circuit, issue the two chained requests, and on success write the
timestamped report file.  The result is the trace of effects together
with the outcome; an exception is an `Except.error` that aborts the rest
of the pipeline (nothing is caught). -/
noncomputable def run_analysis (img : ImageM) (remote : ℕ → Except RemoteFail Json)
    (utcNow : String) (epochTime : ℕ) : List Event × Except QError Report :=
  match from_image img with
  | .error e => ([], .error e)
  | .ok (_vec, theta, color_avg) =>
    let q_score := q_coherence_scan theta color_avg
    let ev1 : List Event := [Event.circuitEval theta color_avg,
      Event.remoteRequest (corruption_stage1 theta q_score color_avg)]
    match ask remote 0 with
    | .error e => (ev1, .error e)
    | .ok r1 =>
      match r1.get "alignment" with
      | none => (ev1, .error (.keyError "alignment"))
      | some align =>
        let ev2 := ev1 ++ [Event.remoteRequest (corruption_stage2 align theta)]
        match ask remote 1 with
        | .error e => (ev2, .error e)
        | .ok r2 =>
          match r1.get "risk_score" with
          | none => (ev2, .error (.keyError "risk_score"))
          | some risk =>
            match r1.get "summary" with
            | none => (ev2, .error (.keyError "summary"))
            | some summ =>
              match r2.get "branches" with
              | none => (ev2, .error (.keyError "branches"))
              | some br =>
                match r2.get "intervention" with
                | none => (ev2, .error (.keyError "intervention"))
                | some interv =>
                  let report : Report :=
                    Report.mk utcNow theta q_score align risk summ br interv
                  let fn := "corruption_report_" ++ toString epochTime ++ ".json"
                  (ev2 ++ [Event.fileWrite fn report], .ok report)

theorem from_image_ok (img : ImageM) (v : List ℝ) (vs : List (List ℝ))
    (hv : img.faces = v :: vs) :
    from_image img = .ok (v, faceTheta v, colorAvg img) := by
  unfold from_image
  rw [hv]

/-- The trace after the circuit evaluation and the first request. -/
noncomputable def trace1 (img : ImageM) (v : List ℝ) : List Event :=
  [Event.circuitEval (faceTheta v) (colorAvg img),
   Event.remoteRequest (corruption_stage1 (faceTheta v)
     (q_coherence_scan (faceTheta v) (colorAvg img)) (colorAvg img))]

/-- The trace after the second request has also been issued. -/
noncomputable def trace2 (img : ImageM) (v : List ℝ) (align : Json) : List Event :=
  trace1 img v ++ [Event.remoteRequest (corruption_stage2 align (faceTheta v))]

theorem run_analysis_noface (img : ImageM) (remote : ℕ → Except RemoteFail Json)
    (now : String) (ep : ℕ) (h : img.faces = []) :
    run_analysis img remote now ep = ([], .error (.valueError "No face found in image.")) := by
  simp only [run_analysis, from_image, h]

theorem run_analysis_ask0_error (img : ImageM) (v : List ℝ) (vs : List (List ℝ))
    (hv : img.faces = v :: vs) (remote : ℕ → Except RemoteFail Json)
    (now : String) (ep : ℕ) (e : QError) (h0 : ask remote 0 = .error e) :
    run_analysis img remote now ep = (trace1 img v, .error e) := by
  simp only [run_analysis, trace1, from_image_ok img v vs hv, h0]

theorem run_analysis_no_alignment (img : ImageM) (v : List ℝ) (vs : List (List ℝ))
    (hv : img.faces = v :: vs) (remote : ℕ → Except RemoteFail Json)
    (now : String) (ep : ℕ) (r1 : Json) (h0 : ask remote 0 = .ok r1)
    (ha : r1.get "alignment" = none) :
    run_analysis img remote now ep = (trace1 img v, .error (.keyError "alignment")) := by
  simp only [run_analysis, trace1, from_image_ok img v vs hv, h0, ha]

theorem run_analysis_ask1_error (img : ImageM) (v : List ℝ) (vs : List (List ℝ))
    (hv : img.faces = v :: vs) (remote : ℕ → Except RemoteFail Json)
    (now : String) (ep : ℕ) (r1 align : Json) (h0 : ask remote 0 = .ok r1)
    (ha : r1.get "alignment" = some align) (e : QError) (h1 : ask remote 1 = .error e) :
    run_analysis img remote now ep = (trace2 img v align, .error e) := by
  simp only [run_analysis, trace2, trace1, from_image_ok img v vs hv, h0, ha, h1]

theorem run_analysis_no_risk (img : ImageM) (v : List ℝ) (vs : List (List ℝ))
    (hv : img.faces = v :: vs) (remote : ℕ → Except RemoteFail Json)
    (now : String) (ep : ℕ) (r1 align r2 : Json) (h0 : ask remote 0 = .ok r1)
    (ha : r1.get "alignment" = some align) (h1 : ask remote 1 = .ok r2)
    (hr : r1.get "risk_score" = none) :
    run_analysis img remote now ep = (trace2 img v align, .error (.keyError "risk_score")) := by
  simp only [run_analysis, trace2, trace1, from_image_ok img v vs hv, h0, ha, h1, hr]

theorem run_analysis_no_summary (img : ImageM) (v : List ℝ) (vs : List (List ℝ))
    (hv : img.faces = v :: vs) (remote : ℕ → Except RemoteFail Json)
    (now : String) (ep : ℕ) (r1 align r2 risk : Json) (h0 : ask remote 0 = .ok r1)
    (ha : r1.get "alignment" = some align) (h1 : ask remote 1 = .ok r2)
    (hr : r1.get "risk_score" = some risk) (hs : r1.get "summary" = none) :
    run_analysis img remote now ep = (trace2 img v align, .error (.keyError "summary")) := by
  simp only [run_analysis, trace2, trace1, from_image_ok img v vs hv, h0, ha, h1, hr, hs]

theorem run_analysis_no_branches (img : ImageM) (v : List ℝ) (vs : List (List ℝ))
    (hv : img.faces = v :: vs) (remote : ℕ → Except RemoteFail Json)
    (now : String) (ep : ℕ) (r1 align r2 risk summ : Json) (h0 : ask remote 0 = .ok r1)
    (ha : r1.get "alignment" = some align) (h1 : ask remote 1 = .ok r2)
    (hr : r1.get "risk_score" = some risk) (hs : r1.get "summary" = some summ)
    (hb : r2.get "branches" = none) :
    run_analysis img remote now ep = (trace2 img v align, .error (.keyError "branches")) := by
  simp only [run_analysis, trace2, trace1, from_image_ok img v vs hv, h0, ha, h1, hr, hs, hb]

theorem run_analysis_no_intervention (img : ImageM) (v : List ℝ) (vs : List (List ℝ))
    (hv : img.faces = v :: vs) (remote : ℕ → Except RemoteFail Json)
    (now : String) (ep : ℕ) (r1 align r2 risk summ br : Json) (h0 : ask remote 0 = .ok r1)
    (ha : r1.get "alignment" = some align) (h1 : ask remote 1 = .ok r2)
    (hr : r1.get "risk_score" = some risk) (hs : r1.get "summary" = some summ)
    (hb : r2.get "branches" = some br) (hi : r2.get "intervention" = none) :
    run_analysis img remote now ep = (trace2 img v align, .error (.keyError "intervention")) := by
  simp only [run_analysis, trace2, trace1, from_image_ok img v vs hv, h0, ha, h1, hr, hs, hb, hi]

theorem run_analysis_success (img : ImageM) (v : List ℝ) (vs : List (List ℝ))
    (hv : img.faces = v :: vs) (remote : ℕ → Except RemoteFail Json)
    (now : String) (ep : ℕ) (r1 align r2 risk summ br interv : Json)
    (h0 : ask remote 0 = .ok r1)
    (ha : r1.get "alignment" = some align) (h1 : ask remote 1 = .ok r2)
    (hr : r1.get "risk_score" = some risk) (hs : r1.get "summary" = some summ)
    (hb : r2.get "branches" = some br) (hi : r2.get "intervention" = some interv) :
    run_analysis img remote now ep =
      (trace2 img v align ++
        [Event.fileWrite ("corruption_report_" ++ toString ep ++ ".json")
          (Report.mk now (faceTheta v) (q_coherence_scan (faceTheta v) (colorAvg img))
            align risk summ br interv)],
       .ok (Report.mk now (faceTheta v) (q_coherence_scan (faceTheta v) (colorAvg img))
            align risk summ br interv)) := by
  simp only [run_analysis, trace2, trace1, from_image_ok img v vs hv, h0, ha, h1, hr, hs, hb, hi]

theorem ask_error_ne_valueError (remote : ℕ → Except RemoteFail Json) (k : ℕ) (e : QError)
    (h : ask remote k = Except.error e) (s : String) : e ≠ QError.valueError s := by
  unfold ask at h
  rcases hr : remote k with f | j
  · rw [hr] at h
    simp only [Except.error.injEq] at h
    cases f <;> rw [← h] <;> simp [RemoteFail.toQError]
  · rw [hr] at h
    simp at h

theorem run_analysis_shape (img : ImageM) (remote : ℕ → Except RemoteFail Json)
    (now : String) (ep : ℕ) :
    (img.faces = [] ∧ run_analysis img remote now ep =
      ([], Except.error (QError.valueError "No face found in image."))) ∨
    (∃ v vs e, img.faces = v :: vs ∧
      (∀ s, e ≠ QError.valueError s) ∧
      run_analysis img remote now ep = (trace1 img v, Except.error e)) ∨
    (∃ v vs align e, img.faces = v :: vs ∧
      (∀ s, e ≠ QError.valueError s) ∧
      (∃ r1, ask remote 0 = Except.ok r1 ∧ r1.get "alignment" = some align) ∧
      run_analysis img remote now ep = (trace2 img v align, Except.error e)) ∨
    (∃ v vs r1 r2 align risk summ br interv, img.faces = v :: vs ∧
      ask remote 0 = Except.ok r1 ∧ r1.get "alignment" = some align ∧
      ask remote 1 = Except.ok r2 ∧ r1.get "risk_score" = some risk ∧
      r1.get "summary" = some summ ∧ r2.get "branches" = some br ∧
      r2.get "intervention" = some interv ∧
      run_analysis img remote now ep =
        (trace2 img v align ++
          [Event.fileWrite ("corruption_report_" ++ toString ep ++ ".json")
            (Report.mk now (faceTheta v) (q_coherence_scan (faceTheta v) (colorAvg img))
              align risk summ br interv)],
         Except.ok (Report.mk now (faceTheta v)
           (q_coherence_scan (faceTheta v) (colorAvg img)) align risk summ br interv))) := by
  rcases hfaces : img.faces with _ | ⟨v, vs⟩
  · exact Or.inl ⟨rfl, run_analysis_noface img remote now ep hfaces⟩
  · rcases h0 : ask remote 0 with e | r1
    · exact Or.inr (Or.inl ⟨v, vs, e, rfl, ask_error_ne_valueError remote 0 e h0,
        run_analysis_ask0_error img v vs hfaces remote now ep e h0⟩)
    · rcases ha : r1.get "alignment" with _ | align
      · refine Or.inr (Or.inl ⟨v, vs, QError.keyError "alignment", rfl, ?_, ?_⟩)
        · intro s
          simp
        · exact run_analysis_no_alignment img v vs hfaces remote now ep r1 h0 ha
      · rcases h1 : ask remote 1 with e | r2
        · exact Or.inr (Or.inr (Or.inl ⟨v, vs, align, e, rfl,
            ask_error_ne_valueError remote 1 e h1, ⟨r1, rfl, ha⟩,
            run_analysis_ask1_error img v vs hfaces remote now ep r1 align h0 ha e h1⟩))
        · rcases hr : r1.get "risk_score" with _ | risk
          · refine Or.inr (Or.inr (Or.inl ⟨v, vs, align, QError.keyError "risk_score", rfl,
              ?_, ⟨r1, rfl, ha⟩,
              run_analysis_no_risk img v vs hfaces remote now ep r1 align r2 h0 ha h1 hr⟩))
            intro s
            simp
          · rcases hs : r1.get "summary" with _ | summ
            · refine Or.inr (Or.inr (Or.inl ⟨v, vs, align, QError.keyError "summary", rfl,
                ?_, ⟨r1, rfl, ha⟩,
                run_analysis_no_summary img v vs hfaces remote now ep r1 align r2 risk
                  h0 ha h1 hr hs⟩))
              intro s
              simp
            · rcases hb : r2.get "branches" with _ | br
              · refine Or.inr (Or.inr (Or.inl ⟨v, vs, align, QError.keyError "branches", rfl,
                  ?_, ⟨r1, rfl, ha⟩,
                  run_analysis_no_branches img v vs hfaces remote now ep r1 align r2 risk summ
                    h0 ha h1 hr hs hb⟩))
                intro s
                simp
              · rcases hi : r2.get "intervention" with _ | interv
                · refine Or.inr (Or.inr (Or.inl ⟨v, vs, align,
                    QError.keyError "intervention", rfl, ?_, ⟨r1, rfl, ha⟩,
                    run_analysis_no_intervention img v vs hfaces remote now ep r1 align r2
                      risk summ br h0 ha h1 hr hs hb hi⟩))
                  intro s
                  simp
                · exact Or.inr (Or.inr (Or.inr ⟨v, vs, r1, r2, align, risk, summ, br, interv,
                    rfl, rfl, ha, rfl, hr, hs, hb, hi,
                    run_analysis_success img v vs hfaces remote now ep r1 align r2 risk summ
                      br interv h0 ha h1 hr hs hb hi⟩))

/-- C4: when no face is detected, `run_analysis` fails with
`ValueError("No face found in image.")` and an empty trace — before any
circuit evaluation, remote request or file write; with a detected face
this error never occurs (`from_image` succeeds), it being the only
explicit error condition of the image stage. -/
theorem run_analysis_noface_iff (img : ImageM) (remote : ℕ → Except RemoteFail Json)
    (now : String) (ep : ℕ) :
    ((run_analysis img remote now ep).2 =
        Except.error (QError.valueError "No face found in image.") ↔ img.faces = []) ∧
    (img.faces = [] → run_analysis img remote now ep =
        ([], Except.error (QError.valueError "No face found in image."))) ∧
    (∀ v vs, img.faces = v :: vs →
      from_image img = Except.ok (v, faceTheta v, colorAvg img)) := by
  have hfok : ∀ v vs, img.faces = v :: vs →
      from_image img = Except.ok (v, faceTheta v, colorAvg img) :=
    fun v vs hv => from_image_ok img v vs hv
  rcases run_analysis_shape img remote now ep with
    ⟨hf, hrun⟩ | ⟨v, vs, e, hf, hne, hrun⟩ | ⟨v, vs, align, e, hf, hne, hask, hrun⟩ |
    ⟨v, vs, r1, r2, align, risk, summ, br, interv, hf, h0, ha, h1, hr, hs, hb, hi, hrun⟩
  · exact ⟨by rw [hrun]; simp [hf], fun _ => hrun, hfok⟩
  · refine ⟨?_, ?_, hfok⟩
    · rw [hrun, hf]
      simp only [List.cons_ne_nil, iff_false]
      intro hh
      exact hne _ (by injection hh)
    · intro hh
      rw [hh] at hf
      exact absurd hf.symm (by simp)
  · refine ⟨?_, ?_, hfok⟩
    · rw [hrun, hf]
      simp only [List.cons_ne_nil, iff_false]
      intro hh
      exact hne _ (by injection hh)
    · intro hh
      rw [hh] at hf
      exact absurd hf.symm (by simp)
  · refine ⟨?_, ?_, hfok⟩
    · rw [hrun, hf]
      simp
    · intro hh
      rw [hh] at hf
      exact absurd hf.symm (by simp)

/-- C5: a completed run writes exactly one file, with the timestamped
name `corruption_report_<epoch>.json`, whose content is the report whose
eight fields come from the run clock, the derived scalars, the first
response, and the second response. -/
theorem run_analysis_single_report (img : ImageM) (remote : ℕ → Except RemoteFail Json)
    (now : String) (ep : ℕ) (r : Report)
    (h : (run_analysis img remote now ep).2 = Except.ok r) :
    filesOf (run_analysis img remote now ep).1 =
      [("corruption_report_" ++ toString ep ++ ".json", r)] ∧
    r.timestamp = now ∧
    (∃ v vs, img.faces = v :: vs ∧ r.theta = faceTheta v ∧
      r.q_score = q_coherence_scan (faceTheta v) (colorAvg img)) ∧
    (∃ r1, ask remote 0 = Except.ok r1 ∧ r1.get "alignment" = some r.alignment ∧
      r1.get "risk_score" = some r.risk_score ∧ r1.get "summary" = some r.summary) ∧
    (∃ r2, ask remote 1 = Except.ok r2 ∧ r2.get "branches" = some r.branches ∧
      r2.get "intervention" = some r.intervention) := by
  rcases run_analysis_shape img remote now ep with
    ⟨hf, hrun⟩ | ⟨v, vs, e, hf, hne, hrun⟩ | ⟨v, vs, align, e, hf, hne, hask, hrun⟩ |
    ⟨v, vs, r1, r2, align, risk, summ, br, interv, hf, h0, ha, h1, hr, hs, hb, hi, hrun⟩
  · rw [hrun] at h
    simp at h
  · rw [hrun] at h
    simp at h
  · rw [hrun] at h
    simp at h
  · rw [hrun] at h
    simp only [Except.ok.injEq] at h
    subst h
    refine ⟨?_, rfl, ⟨v, vs, hf, rfl, rfl⟩, ⟨r1, h0, ha, hr, hs⟩, ⟨r2, h1, hb, hi⟩⟩
    rw [hrun]
    simp [filesOf, trace2, trace1]

/-- C7: on every failing run — remote API failure, malformed JSON,
missing response field, or the no-face error — nothing is caught: the
error is the run's result, and no file write appears in the trace (the
on-disk state is unchanged); remote failures of either request propagate
verbatim. -/
theorem run_analysis_uncaught (img : ImageM) (remote : ℕ → Except RemoteFail Json)
    (now : String) (ep : ℕ) :
    (∀ e, (run_analysis img remote now ep).2 = Except.error e →
      filesOf (run_analysis img remote now ep).1 = []) ∧
    (∀ v vs e, img.faces = v :: vs → ask remote 0 = Except.error e →
      run_analysis img remote now ep = (trace1 img v, Except.error e)) ∧
    (∀ v vs r1 align e, img.faces = v :: vs → ask remote 0 = Except.ok r1 →
      r1.get "alignment" = some align → ask remote 1 = Except.error e →
      run_analysis img remote now ep = (trace2 img v align, Except.error e)) := by
  refine ⟨?_, ?_, ?_⟩
  · intro e h
    rcases run_analysis_shape img remote now ep with
      ⟨hf, hrun⟩ | ⟨v, vs, e2, hf, hne, hrun⟩ | ⟨v, vs, align, e2, hf, hne, hask, hrun⟩ |
      ⟨v, vs, r1, r2, align, risk, summ, br, interv, hf, h0, ha, h1, hr, hs, hb, hi, hrun⟩
    · rw [hrun]
      simp [filesOf]
    · rw [hrun]
      simp [filesOf, trace1]
    · rw [hrun]
      simp [filesOf, trace2, trace1]
    · rw [hrun] at h
      simp at h
  · intro v vs e hv h0
    exact run_analysis_ask0_error img v vs hv remote now ep e h0
  · intro v vs r1 align e hv h0 ha h1
    exact run_analysis_ask1_error img v vs hv remote now ep r1 align h0 ha e h1

/-- C10: the `risk_score` (and `alignment`) written to the report are the
first response's fields verbatim — no check against the `0.00 - 1.00`
range or the three allowed labels the prompt requests: whatever JSON
value the parsed response carries is written unchanged to the file. -/
theorem run_analysis_risk_verbatim (img : ImageM) (remote : ℕ → Except RemoteFail Json)
    (now : String) (ep : ℕ) (r : Report)
    (h : (run_analysis img remote now ep).2 = Except.ok r) :
    (∃ r1, ask remote 0 = Except.ok r1 ∧ r1.get "risk_score" = some r.risk_score ∧
      r1.get "alignment" = some r.alignment) ∧
    filesOf (run_analysis img remote now ep).1 =
      [("corruption_report_" ++ toString ep ++ ".json", r)] := by
  rcases run_analysis_shape img remote now ep with
    ⟨hf, hrun⟩ | ⟨v, vs, e, hf, hne, hrun⟩ | ⟨v, vs, align, e, hf, hne, hask, hrun⟩ |
    ⟨v, vs, r1, r2, align, risk, summ, br, interv, hf, h0, ha, h1, hr, hs, hb, hi, hrun⟩
  · rw [hrun] at h
    simp at h
  · rw [hrun] at h
    simp at h
  · rw [hrun] at h
    simp at h
  · rw [hrun] at h
    simp only [Except.ok.injEq] at h
    subst h
    refine ⟨⟨r1, h0, hr, ha⟩, ?_⟩
    rw [hrun]
    simp [filesOf, trace2, trace1]

/-- C6: a run issues at most two remote requests, strictly in sequence —
the first carrying `theta`, the circuit score and the color pair; the
second existing only once the first response has been parsed and its
`alignment` field extracted, and being a function of that field and
`theta` — and a completed run issues exactly these two. -/
theorem run_analysis_two_requests (img : ImageM) (remote : ℕ → Except RemoteFail Json)
    (now : String) (ep : ℕ) :
    (∀ r, (run_analysis img remote now ep).2 = Except.ok r →
      ∃ v vs r1, img.faces = v :: vs ∧ ask remote 0 = Except.ok r1 ∧
        r1.get "alignment" = some r.alignment ∧
        requestsOf (run_analysis img remote now ep).1 =
          [corruption_stage1 (faceTheta v)
            (q_coherence_scan (faceTheta v) (colorAvg img)) (colorAvg img),
           corruption_stage2 r.alignment (faceTheta v)]) ∧
    (requestsOf (run_analysis img remote now ep).1 = [] ∨
     (∃ v vs, img.faces = v :: vs ∧
        requestsOf (run_analysis img remote now ep).1 =
          [corruption_stage1 (faceTheta v)
            (q_coherence_scan (faceTheta v) (colorAvg img)) (colorAvg img)]) ∨
     (∃ v vs r1 align, img.faces = v :: vs ∧ ask remote 0 = Except.ok r1 ∧
        r1.get "alignment" = some align ∧
        requestsOf (run_analysis img remote now ep).1 =
          [corruption_stage1 (faceTheta v)
            (q_coherence_scan (faceTheta v) (colorAvg img)) (colorAvg img),
           corruption_stage2 align (faceTheta v)])) := by
  rcases run_analysis_shape img remote now ep with
    ⟨hf, hrun⟩ | ⟨v, vs, e, hf, hne, hrun⟩ | ⟨v, vs, align, e, hf, hne, hask, hrun⟩ |
    ⟨v, vs, r1, r2, align, risk, summ, br, interv, hf, h0, ha, h1, hr, hs, hb, hi, hrun⟩
  · constructor
    · intro r h
      rw [hrun] at h
      simp at h
    · left
      rw [hrun]
      simp [requestsOf]
  · constructor
    · intro r h
      rw [hrun] at h
      simp at h
    · right
      left
      refine ⟨v, vs, hf, ?_⟩
      rw [hrun]
      simp [requestsOf, trace1]
  · constructor
    · intro r h
      rw [hrun] at h
      simp at h
    · right
      right
      obtain ⟨r1, h0, ha⟩ := hask
      refine ⟨v, vs, r1, align, hf, h0, ha, ?_⟩
      rw [hrun]
      simp [requestsOf, trace2, trace1]
  · constructor
    · intro r h
      rw [hrun] at h
      simp only [Except.ok.injEq] at h
      subst h
      refine ⟨v, vs, r1, hf, h0, ha, ?_⟩
      rw [hrun]
      simp [requestsOf, trace2, trace1]
    · right
      right
      refine ⟨v, vs, r1, align, hf, h0, ha, ?_⟩
      rw [hrun]
      simp [requestsOf, trace2, trace1]

/-- A sample image with one face and one pixel, for concrete runs. -/
noncomputable def sampleImg : ImageM := ImageM.mk [[0]] [90] [100]

/-- A sample image in which no face is detected. -/
noncomputable def sampleImgNoFace : ImageM := ImageM.mk [] [90] [100]

/-- A well-formed first-stage response. -/
def sampleR1 : Json := Json.obj
  [("alignment", Json.str "Trustworthy"), ("summary", Json.str "fine"),
   ("risk_score", Json.num (1 / 10))]

/-- A well-formed second-stage response. -/
def sampleR2 : Json := Json.obj
  [("branches", Json.arr [Json.str "b1", Json.str "b2", Json.str "b3"]),
   ("intervention", Json.str "plan")]

/-- A remote oracle answering both requests well-formedly. -/
def sampleRemote : ℕ → Except RemoteFail Json :=
  fun k => if k = 0 then Except.ok sampleR1 else Except.ok sampleR2

/-- A remote oracle whose every call fails at the API layer. -/
def failRemote : ℕ → Except RemoteFail Json :=
  fun _ => Except.error (RemoteFail.apiError "connection refused")

/-- The report the sample run produces. -/
noncomputable def sampleReport : Report :=
  Report.mk "2025-01-01T00:00:00" (faceTheta [0])
    (q_coherence_scan (faceTheta [0]) (colorAvg sampleImg))
    (Json.str "Trustworthy") (Json.num (1 / 10)) (Json.str "fine")
    (Json.arr [Json.str "b1", Json.str "b2", Json.str "b3"]) (Json.str "plan")

theorem sampleRun :
    run_analysis sampleImg sampleRemote "2025-01-01T00:00:00" 5 =
      (trace2 sampleImg [0] (Json.str "Trustworthy") ++
        [Event.fileWrite ("corruption_report_" ++ toString 5 ++ ".json") sampleReport],
       Except.ok sampleReport) :=
  run_analysis_success sampleImg [0] [] rfl sampleRemote "2025-01-01T00:00:00" 5
    sampleR1 (Json.str "Trustworthy") sampleR2 (Json.num (1 / 10)) (Json.str "fine")
    (Json.arr [Json.str "b1", Json.str "b2", Json.str "b3"]) (Json.str "plan")
    rfl rfl rfl rfl rfl rfl rfl

theorem run_analysis_noface_iff_witness :
    run_analysis sampleImgNoFace sampleRemote "t" 0 =
      ([], Except.error (QError.valueError "No face found in image.")) ∧
    from_image sampleImg = Except.ok ([0], faceTheta [0], colorAvg sampleImg) :=
  ⟨(run_analysis_noface_iff sampleImgNoFace sampleRemote "t" 0).2.1 rfl,
   (run_analysis_noface_iff sampleImg sampleRemote "t" 0).2.2 [0] [] rfl⟩

theorem run_analysis_single_report_witness :
    filesOf (run_analysis sampleImg sampleRemote "2025-01-01T00:00:00" 5).1 =
      [("corruption_report_" ++ toString 5 ++ ".json", sampleReport)] :=
  (run_analysis_single_report sampleImg sampleRemote "2025-01-01T00:00:00" 5 sampleReport
    (by rw [sampleRun])).1

theorem run_analysis_two_requests_witness :
    ∃ v vs r1, sampleImg.faces = v :: vs ∧ ask sampleRemote 0 = Except.ok r1 ∧
      r1.get "alignment" = some sampleReport.alignment ∧
      requestsOf (run_analysis sampleImg sampleRemote "2025-01-01T00:00:00" 5).1 =
        [corruption_stage1 (faceTheta v)
          (q_coherence_scan (faceTheta v) (colorAvg sampleImg)) (colorAvg sampleImg),
         corruption_stage2 sampleReport.alignment (faceTheta v)] :=
  (run_analysis_two_requests sampleImg sampleRemote "2025-01-01T00:00:00" 5).1
    sampleReport (by rw [sampleRun])

theorem run_analysis_uncaught_witness :
    filesOf (run_analysis sampleImg failRemote "t" 0).1 = [] :=
  (run_analysis_uncaught sampleImg failRemote "t" 0).1 (QError.apiError "connection refused")
    (by rw [run_analysis_ask0_error sampleImg [0] [] rfl failRemote "t" 0
      (QError.apiError "connection refused") rfl])

/-- A first-stage response whose `risk_score` is far outside `[0, 1]` and
whose `alignment` is none of the three labels the prompt requests. -/
def bigR1 : Json := Json.obj
  [("alignment", Json.str "Cosmic"), ("summary", Json.str "s"),
   ("risk_score", Json.num 7)]

/-- A remote oracle returning the out-of-range first response. -/
def bigRemote : ℕ → Except RemoteFail Json :=
  fun k => if k = 0 then Except.ok bigR1 else Except.ok sampleR2

/-- The report of the out-of-range run: `risk_score = 7` is written
verbatim. -/
noncomputable def bigReport : Report :=
  Report.mk "t" (faceTheta [0]) (q_coherence_scan (faceTheta [0]) (colorAvg sampleImg))
    (Json.str "Cosmic") (Json.num 7) (Json.str "s")
    (Json.arr [Json.str "b1", Json.str "b2", Json.str "b3"]) (Json.str "plan")

theorem bigRun :
    run_analysis sampleImg bigRemote "t" 7 =
      (trace2 sampleImg [0] (Json.str "Cosmic") ++
        [Event.fileWrite ("corruption_report_" ++ toString 7 ++ ".json") bigReport],
       Except.ok bigReport) :=
  run_analysis_success sampleImg [0] [] rfl bigRemote "t" 7
    bigR1 (Json.str "Cosmic") sampleR2 (Json.num 7) (Json.str "s")
    (Json.arr [Json.str "b1", Json.str "b2", Json.str "b3"]) (Json.str "plan")
    rfl rfl rfl rfl rfl rfl rfl

theorem run_analysis_risk_verbatim_witness :
    (∃ r1, ask bigRemote 0 = Except.ok r1 ∧
      r1.get "risk_score" = some bigReport.risk_score ∧
      r1.get "alignment" = some bigReport.alignment) ∧
    filesOf (run_analysis sampleImg bigRemote "t" 7).1 =
      [("corruption_report_" ++ toString 7 ++ ".json", bigReport)] :=
  run_analysis_risk_verbatim sampleImg bigRemote "t" 7 bigReport (by rw [bigRun])
